import Mathlib

/-!
Verification of the gofetch chunked-download engine.

This file gives a shallow embedding of the second (Fetcher-based) revision of
gofetch.go: the range planner arithmetic of parallelFetch, the per-range
fetch with resume detection (Fetcher.fetch), the orchestration of
Fetcher.Fetch (preflight, ETag cache check, download, verification), and the
event trace it produces (progress reports, GET requests, channel close,
worker joins).  Go int64 values are modelled as Int; Go division and modulo
truncate toward zero, which is Int.tdiv and Int.tmod.  Goroutine execution is
modelled by serializing the per-chunk work in range-index order, which is a
linearization consistent with the sync.WaitGroup join in parallelFetch.
External effects (HTTP responses, on-disk file sizes, mkdir or assembly
failures) are inputs to the model.
-/

namespace GoFetch

/-- ProgressReport, from gofetch.go: total length and the bytes written by a
single write operation (non-cumulative). -/
structure ProgressReport where
  total : Int
  writtenBytes : Int
deriving DecidableEq, Repr

/-- Fetcher, from gofetch.go: the instance-level configuration.  The Go
struct also carries an http.Client; only its observable configuration is
modelled. -/
structure Fetcher where
  destDir : String
  etag : Bool
  concurrency : Int
  algorithm : String
  checksum : String
deriving DecidableEq, Repr

/-- Observable events of one Fetch call: the preflight HEAD request, a GET
request carrying its Range header, a progress report sent on the progress
channel, the close of the progress channel, and the termination (wg.Done) of
chunk worker i. -/
inductive Event where
  | head : Event
  | get : String → Event
  | progress : ProgressReport → Event
  | closeProgress : Event
  | workerDone : Nat → Event
deriving DecidableEq, Repr

/-- Errors a chunk worker can report (Fetcher.fetch error returns that the
model distinguishes): a transport failure of client.Do, and a non-2xx
response status. -/
inductive ChunkErr where
  | transport : ChunkErr
  | non2xx : ChunkErr
deriving DecidableEq, Repr

/-- Errors of the whole Fetch call.  divideByZero stands for the Go runtime
panic raised by `length / concurrency` when concurrency is 0. -/
inductive FetchErr where
  | urlRequired : FetchErr
  | headTransport : FetchErr
  | non2xx : FetchErr
  | createMarkerFailed : FetchErr
  | mkdirFailed : FetchErr
  | divideByZero : FetchErr
  | aggregated : List ChunkErr → FetchErr
  | assembleFailed : FetchErr
  | unsupportedAlgorithm : String → FetchErr
  | checksumMismatch : String → String → FetchErr
deriving DecidableEq, Repr

/-! ## Range planning (parallelFetch, lines 478-495)

    chunkSize := length / concurrency
    remainingSize := length % concurrency
    min := chunkSize * i
    max := chunkSize * (i + 1)
    if i == concurrency-1 { max += remainingSize }
-/

/-- chunkSize := length / concurrency (Go int64 division truncates toward
zero, hence Int.tdiv). -/
def chunkSize (length concurrency : Int) : Int := length.tdiv concurrency

/-- remainingSize := length % concurrency (Go int64 remainder, Int.tmod). -/
def remainingSize (length concurrency : Int) : Int := length.tmod concurrency

/-- The byte range [min, max) computed for loop index i in parallelFetch; the
last index absorbs the remainder. -/
def rangeFor (length concurrency : Int) (i : Int) : Int × Int :=
  let mn := chunkSize length concurrency * i
  let mx := chunkSize length concurrency * (i + 1)
  if i = concurrency - 1 then (mn, mx + remainingSize length concurrency)
  else (mn, mx)

/-- The ordered list of ranges spawned by the parallelFetch loop
`for i := int64(0); i < concurrency; i++`.  For concurrency ≤ 0 the loop body
never runs, hence Int.toNat. -/
def planRanges (length concurrency : Int) : List (Int × Int) :=
  (List.range concurrency.toNat).map (fun i : Nat => rangeFor length concurrency (i : Int))

/-- The Range request header built in Fetcher.fetch:
`bytes=<min>-<max-1>`, or the open-ended `bytes=<min>-` when max == -1. -/
def rangeHeader (min max : Int) : String :=
  if max = -1 then "bytes=" ++ toString min ++ "-"
  else "bytes=" ++ toString min ++ "-" ++ toString (max - 1)

/-! ## Per-range fetch (Fetcher.fetch, lines 555-626) -/

/-- External behaviour seen by one chunk worker: the size os.Stat reports for
its temp file, whether client.Do succeeds, whether the GET response status is
2xx, and the byte counts of the successive writes io.Copy performs into the
chunk file. -/
structure ChunkEnv where
  currFileSize : Int
  getOk : Bool
  status2xx : Bool
  bodyWrites : List Int

/-- What one chunk worker produced: the events it emitted (in order) and its
error result (none on success, as the Go function returns nil). -/
structure ChunkOutcome where
  events : List Event
  err : Option ChunkErr
deriving DecidableEq, Repr

/-- io.LimitReader(res.Body, currChunkSize): the writes that still happen
once the reader is limited to `budget` bytes. -/
def limitWrites : Int → List Int → List Int
  | _, [] => []
  | budget, w :: ws =>
    if budget ≤ 0 then []
    else if w ≤ budget then w :: limitWrites (budget - w) ws
    else [budget]

/-- Fetcher.fetch: open/stat the chunk temp file, return early when the chunk
is already complete, otherwise report the bytes already on disk, advance min
by them, issue a range GET and stream the body to disk, emitting one progress
event per write.  `pn` is progressCh != nil. -/
def fetchModel (total min max : Int) (pn : Bool) (env : ChunkEnv) : ChunkOutcome :=
  let currFileSize := env.currFileSize
  let currChunkSize := max - min
  -- There is nothing to do if chunk data file was fully downloaded.
  if currFileSize > 0 ∧ currFileSize = currChunkSize then
    { events := [], err := none }
  else
    -- Report bytes written already into the file.
    let preEvents := if pn then [Event.progress ⟨total, currFileSize⟩] else []
    -- Adjusts min to resume file download from where it was left off.
    let min := if currFileSize > 0 then min + currFileSize else min
    let getEv := Event.get (rangeHeader min max)
    if ¬ env.getOk then
      { events := preEvents ++ [getEv], err := some ChunkErr.transport }
    else if ¬ env.status2xx then
      { events := preEvents ++ [getEv], err := some ChunkErr.non2xx }
    else
      -- Known content-length: io.Copy reads through a LimitReader capped at
      -- currChunkSize; unknown length (max == -1): unlimited.
      let writes := if max > 0 then limitWrites currChunkSize env.bodyWrites
                    else env.bodyWrites
      let writeEvents :=
        if pn then writes.map (fun w => Event.progress ⟨total, w⟩) else []
      { events := preEvents ++ [getEv] ++ writeEvents, err := none }

/-! ## Parallel orchestration (Fetcher.parallelFetch, lines 470-529) -/

/-- External behaviour seen by parallelFetch: whether os.MkdirAll of the
chunks directory succeeds, the per-worker chunk environment, and whether
assembleChunks succeeds. -/
structure PEnv where
  mkdirOk : Bool
  chunk : Nat → ChunkEnv
  assembleOk : Bool

/-- Result of parallelFetch: the events it emitted (worker events serialized
in range-index order, which is a linearization consistent with the
wg.Wait join, followed by the deferred close of the progress channel), its
result, and whether assembleChunks was invoked. -/
structure PFResult where
  trace : List Event
  result : Except FetchErr Unit
  assembleCalled : Bool

/-- The outcome of chunk worker i: Fetcher.fetch applied to the range
computed for loop index i. -/
def chunkOutcome (gf : Fetcher) (length : Int) (pn : Bool) (env : PEnv)
    (i : Nat) : ChunkOutcome :=
  let r := rangeFor length gf.concurrency i
  fetchModel length r.1 r.2 pn (env.chunk i)

/-- The outcomes of all spawned chunk workers, in range-index order. -/
def chunkOutcomes (gf : Fetcher) (length : Int) (pn : Bool) (env : PEnv) :
    List ChunkOutcome :=
  (List.range gf.concurrency.toNat).map (chunkOutcome gf length pn env)

/-- The per-range errors collected into the shared errs slice (one entry per
failed worker, in range-index order). -/
def chunkErrors (gf : Fetcher) (length : Int) (pn : Bool) (env : PEnv) :
    List ChunkErr :=
  (chunkOutcomes gf length pn env).filterMap (fun o => o.err)

/-- The events of all chunk workers, each worker followed by its wg.Done. -/
def workerEvents (gf : Fetcher) (length : Int) (pn : Bool) (env : PEnv) :
    List Event :=
  ((List.range gf.concurrency.toNat).map
    (fun i => (chunkOutcome gf length pn env i).events ++ [Event.workerDone i])).flatten

/-- Fetcher.parallelFetch: defer close of the progress channel, compute
chunkSize (a division that panics in Go when concurrency is 0 — the deferred
close still runs while panicking), create the chunks directory, spawn one
worker per range, join them, then either fail with the aggregated per-range
errors or assemble the chunks. -/
def parallelFetchModel (gf : Fetcher) (length : Int) (pn : Bool) (env : PEnv) :
    PFResult :=
  let closeEv := if pn then [Event.closeProgress] else []
  if gf.concurrency = 0 then
    { trace := closeEv, result := Except.error FetchErr.divideByZero,
      assembleCalled := false }
  else if ¬ env.mkdirOk then
    { trace := closeEv, result := Except.error FetchErr.mkdirFailed,
      assembleCalled := false }
  else
    let evs := workerEvents gf length pn env
    let errs := chunkErrors gf length pn env
    if errs ≠ [] then
      { trace := evs ++ closeEv, result := Except.error (FetchErr.aggregated errs),
        assembleCalled := false }
    else if ¬ env.assembleOk then
      { trace := evs ++ closeEv, result := Except.error FetchErr.assembleFailed,
        assembleCalled := true }
    else
      { trace := evs ++ closeEv, result := Except.ok (), assembleCalled := true }

/-! ## Integrity verification (Fetcher.verify, lines 433-466) -/

/-- The algorithms the switch in Fetcher.verify accepts. -/
def supportedAlgorithms : List String := ["md5", "sha1", "sha256", "sha512"]

/-- Fetcher.verify: reject unsupported algorithms, then compare the computed
hex digest of the file with the expected checksum; a mismatch returns an
error carrying both. -/
def verifyModel (algorithm checksum computed : String) : Except FetchErr Unit :=
  if algorithm ∈ supportedAlgorithms then
    if computed ≠ checksum then
      Except.error (FetchErr.checksumMismatch computed checksum)
    else Except.ok ()
  else Except.error (FetchErr.unsupportedAlgorithm algorithm)

/-! ## Orchestration (Fetcher.Fetch, lines 358-431) -/

/-- Go path.Base: the last slash-separated element of the path, after
stripping trailing slashes; "." for the empty string, "/" when the path is
all slashes. -/
def baseName (p : String) : String :=
  if p = "" then "." else
  let stripped := (p.toList.reverse.dropWhile (fun c => c = '/'))
  if stripped = [] then "/" else
  String.mk (stripped.takeWhile (fun c => c ≠ '/')).reverse

/-- strings.Trim(s, quote): drop all leading and trailing double quotes, as
applied to the ETag header value. -/
def trimQuotes (s : String) : String :=
  String.mk (((s.toList.dropWhile (fun c => c = '"')).reverse.dropWhile
    (fun c => c = '"')).reverse)

/-- The preflight HEAD response: whether http.Head succeeded at the transport
level, whether its status is 2xx, the Accept-Ranges header comparison with
"bytes", res.ContentLength (-1 when the server omitted it), and the raw ETag
header value. -/
structure HeadResponse where
  ok : Bool
  status2xx : Bool
  acceptRangesBytes : Bool
  contentLength : Int
  etagHeader : String

/-- External state of one Fetch call beyond the HEAD response: the marker
files present under the cache root (keyed by file name and token), the size
os.Stat reports for the destination file (none when Stat fails), whether
os.Create of a new marker succeeds, the parallelFetch environment, and the
hex digest the configured hasher computes over the assembled file. -/
structure World where
  markers : List (String × String)
  destSize : Option Int
  createMarkerOk : Bool
  penv : PEnv
  computedDigest : String

/-- Membership test for a marker file (os.Stat of the marker path). -/
def markerMem (ms : List (String × String)) (k : String × String) : Bool :=
  ms.any (fun p => decide (p = k))

/-- Everything Fetcher.Fetch produced: the Fetcher as mutated by the call,
the marker files afterwards, the event trace, the result, whether the call
returned the existing local file without fetching, and whether the
destination file exists on disk afterwards. -/
structure FetchOutcome where
  fetcher : Fetcher
  markers : List (String × String)
  trace : List Event
  result : Except FetchErr Unit
  skipped : Bool
  destPresent : Bool

/-- The common tail of Fetcher.Fetch from label FETCH: run parallelFetch,
then verify when a checksum algorithm is configured.  The destination file
exists afterwards whenever assembleChunks ran (os.Create) or it already
existed. -/
def fetchPhase (gf : Fetcher) (markers : List (String × String))
    (preTrace : List Event) (length : Int) (pn : Bool) (w : World)
    (destWas : Bool) : FetchOutcome :=
  let pf := parallelFetchModel gf length pn w.penv
  let destNow := if pf.assembleCalled then true else destWas
  match pf.result with
  | Except.error e =>
    { fetcher := gf, markers := markers, trace := preTrace ++ pf.trace,
      result := Except.error e, skipped := false, destPresent := destNow }
  | Except.ok _ =>
    if gf.algorithm ≠ "" then
      match verifyModel gf.algorithm gf.checksum w.computedDigest with
      | Except.error e =>
        { fetcher := gf, markers := markers, trace := preTrace ++ pf.trace,
          result := Except.error e, skipped := false, destPresent := destNow }
      | Except.ok _ =>
        { fetcher := gf, markers := markers, trace := preTrace ++ pf.trace,
          result := Except.ok (), skipped := false, destPresent := destNow }
    else
      { fetcher := gf, markers := markers, trace := preTrace ++ pf.trace,
        result := Except.ok (), skipped := false, destPresent := destNow }

/-- Fetcher.Fetch: validate the URL, preflight HEAD, force concurrency to 1
when the server does not advertise byte-range support, then (with ETag
tracking on) either skip using the marker-and-size double check or create
the missing marker, and finally run the download phase. -/
def FetchModel (gf : Fetcher) (url : String) (pn : Bool) (head : HeadResponse)
    (w : World) : FetchOutcome :=
  let destWas := w.destSize.isSome
  if url = "" then
    { fetcher := gf, markers := w.markers, trace := [],
      result := Except.error FetchErr.urlRequired, skipped := false,
      destPresent := destWas }
  else if ¬ head.ok then
    { fetcher := gf, markers := w.markers, trace := [Event.head],
      result := Except.error FetchErr.headTransport, skipped := false,
      destPresent := destWas }
  else if ¬ head.status2xx then
    { fetcher := gf, markers := w.markers, trace := [Event.head],
      result := Except.error FetchErr.non2xx, skipped := false,
      destPresent := destWas }
  else
    -- Server does not support sending byte ranges, setting concurrency to 1.
    let gf := if head.acceptRangesBytes then gf
              else { gf with concurrency := 1 }
    let fileName := baseName url
    if gf.etag then
      let token := trimQuotes head.etagHeader
      if token = "" then
        fetchPhase gf w.markers [Event.head] head.contentLength pn w destWas
      else if markerMem w.markers (fileName, token) then
        if w.destSize = some head.contentLength then
          -- Already fully downloaded: close the channel, return the file.
          { fetcher := gf, markers := w.markers,
            trace := [Event.head] ++ (if pn then [Event.closeProgress] else []),
            result := Except.ok (), skipped := true, destPresent := destWas }
        else
          fetchPhase gf w.markers [Event.head] head.contentLength pn w destWas
      else
        if ¬ w.createMarkerOk then
          { fetcher := gf, markers := w.markers, trace := [Event.head],
            result := Except.error FetchErr.createMarkerFailed,
            skipped := false, destPresent := destWas }
        else
          fetchPhase gf (w.markers ++ [(fileName, token)]) [Event.head]
            head.contentLength pn w destWas
    else
      fetchPhase gf w.markers [Event.head] head.contentLength pn w destWas

/-! ## Trace observations -/

/-- Is this event a progress report sent on the progress channel? -/
def isProgress : Event → Bool
  | Event.progress _ => true
  | _ => false

/-- Is this event a GET request? -/
def isGet : Event → Bool
  | Event.get _ => true
  | _ => false

/-- Is this event the close of the progress channel? -/
def isClose : Event → Bool
  | Event.closeProgress => true
  | _ => false

/-- Is this event the termination of a chunk worker? -/
def isWorkerDone : Event → Bool
  | Event.workerDone _ => true
  | _ => false

/-- Number of progress reports in a trace. -/
def countProgress (t : List Event) : Nat := (t.filter isProgress).length

/-- Number of GET requests in a trace. -/
def countGet (t : List Event) : Nat := (t.filter isGet).length

/-- Number of closes of the progress channel in a trace. -/
def countClose (t : List Event) : Nat := (t.filter isClose).length

/-- Does some worker terminate after a close of the progress channel?  (This
must never happen: the channel is closed only after the join.) -/
def workerAfterClose : List Event → Bool
  | [] => false
  | Event.closeProgress :: rest => rest.any isWorkerDone || workerAfterClose rest
  | _ :: rest => workerAfterClose rest

/-- Did the result come from a failure taken before any chunk worker was
spawned and before the progress channel was handed to parallelFetch (URL
validation, preflight transport error, non-2xx preflight status, marker
creation failure)?  On exactly these paths Fetcher.Fetch returns without
closing the progress channel. -/
def isPreDownloadFailure : Except FetchErr Unit → Bool
  | Except.error FetchErr.urlRequired => true
  | Except.error FetchErr.headTransport => true
  | Except.error FetchErr.non2xx => true
  | Except.error FetchErr.createMarkerFailed => true
  | _ => false

/-! ## Range arithmetic lemmas -/

/-- The basic division facts behind the planner, valid for a known
(nonnegative) length and positive concurrency: chunkSize and remainder are
nonnegative, the remainder is below the concurrency, and they recompose the
length. -/
theorem range_div_facts (length c : Int) (h0 : 0 ≤ length) (h1 : 1 ≤ c) :
    0 ≤ chunkSize length c ∧ 0 ≤ remainingSize length c ∧
    remainingSize length c < c ∧
    c * chunkSize length c + remainingSize length c = length := by
  have hc0 : (0 : Int) < c := by omega
  have hcs : chunkSize length c = length / c := Int.tdiv_eq_ediv h0 (by omega)
  have hrm : remainingSize length c = length % c := Int.tmod_eq_emod h0 (by omega)
  refine ⟨?_, ?_, ?_, ?_⟩
  · rw [hcs]; exact Int.ediv_nonneg h0 (by omega)
  · rw [hrm]; exact Int.emod_nonneg _ (by omega)
  · rw [hrm]; exact Int.emod_lt_of_pos _ hc0
  · rw [hcs, hrm]; exact Int.ediv_add_emod length c

/-- The start of range i is chunkSize * i, for last and non-last alike. -/
theorem rangeFor_fst (length c i : Int) :
    (rangeFor length c i).1 = chunkSize length c * i := by
  simp only [rangeFor]
  split <;> rfl

/-- The end of a non-last range i is chunkSize * (i + 1). -/
theorem rangeFor_snd_of_ne (length c i : Int) (h : i ≠ c - 1) :
    (rangeFor length c i).2 = chunkSize length c * (i + 1) := by
  simp only [rangeFor]
  rw [if_neg h]

/-- The width of range i: chunkSize, plus the remainder for the last one. -/
theorem rangeFor_width (length c i : Int) :
    (rangeFor length c i).2 - (rangeFor length c i).1 =
      chunkSize length c +
        (if i = c - 1 then remainingSize length c else 0) := by
  simp only [rangeFor]
  split <;> ring

/-- The end of the last range is chunkSize * concurrency + remainder. -/
theorem rangeFor_snd_last (length c : Int) :
    (rangeFor length c (c - 1)).2 =
      chunkSize length c * c + remainingSize length c := by
  have hw := rangeFor_width length c (c - 1)
  rw [if_pos rfl] at hw
  have hf := rangeFor_fst length c (c - 1)
  have h2 : chunkSize length c * (c - 1) + chunkSize length c
      = chunkSize length c * c := by ring
  linarith [hw, hf, h2]

/-- The widths of the planned ranges sum to the total length. -/
theorem planRanges_sum_widths (length c : Int) (h0 : 0 ≤ length) (h1 : 1 ≤ c) :
    ((planRanges length c).map (fun r => r.2 - r.1)).sum = length := by
  obtain ⟨_, _, _, hsum⟩ := range_div_facts length c h0 h1
  obtain ⟨m, hm⟩ : ∃ m, c.toNat = m + 1 := ⟨c.toNat - 1, by omega⟩
  have hmc : ((m : Int) + 1) = c := by omega
  unfold planRanges
  rw [hm, List.range_succ, List.map_append, List.map_append, List.sum_append]
  have hmap : (((List.range m).map (fun i : Nat => rangeFor length c (i : Int))).map
      (fun r => r.2 - r.1)) = (List.range m).map (fun _ => chunkSize length c) := by
    rw [List.map_map]
    refine List.map_congr_left ?_
    intro i hi
    have him : i < m := List.mem_range.mp hi
    have hne : (i : Int) ≠ c - 1 := by omega
    simp only [Function.comp_apply]
    rw [rangeFor_width, if_neg hne, add_zero]
  rw [hmap, List.map_const', List.sum_replicate, List.length_range]
  have hlast : ((([m] : List Nat).map (fun i : Nat => rangeFor length c (i : Int))).map
      (fun r => r.2 - r.1)).sum =
      chunkSize length c + remainingSize length c := by
    have hmeq : (m : Int) = c - 1 := by omega
    simp only [List.map_cons, List.map_nil, List.sum_cons, List.sum_nil, add_zero]
    rw [rangeFor_width, if_pos hmeq]
  rw [hlast, nsmul_eq_mul]
  have hexp : (m : Int) * chunkSize length c +
      (chunkSize length c + remainingSize length c) =
      c * chunkSize length c + remainingSize length c := by
    rw [← hmc]; ring
  linarith [hexp, hsum]

/-- Every byte of [0, length) lies in one of the planned ranges. -/
theorem ranges_cover (length c : Int) (h0 : 0 ≤ length) (h1 : 1 ≤ c)
    (b : Int) (hb0 : 0 ≤ b) (hb : b < length) :
    ∃ i : Int, 0 ≤ i ∧ i < c ∧
      (rangeFor length c i).1 ≤ b ∧ b < (rangeFor length c i).2 := by
  obtain ⟨cs0, rem0, remc, hsum⟩ := range_div_facts length c h0 h1
  have hlast2 := rangeFor_snd_last length c
  have hcc : chunkSize length c * c = c * chunkSize length c := mul_comm _ _
  by_cases hcz : chunkSize length c = 0
  · refine ⟨c - 1, by omega, by omega, ?_, ?_⟩
    · rw [rangeFor_fst, hcz]; simpa using hb0
    · rw [hlast2, hcz, zero_mul, zero_add]
      rw [hcz, mul_zero, zero_add] at hsum
      omega
  · have hcspos : 0 < chunkSize length c := lt_of_le_of_ne cs0 (Ne.symm hcz)
    have hq0 : 0 ≤ b / chunkSize length c :=
      Int.ediv_nonneg hb0 (le_of_lt hcspos)
    have hq1 : chunkSize length c * (b / chunkSize length c) ≤ b := by
      have := Int.ediv_mul_le b (ne_of_gt hcspos)
      linarith [this, mul_comm (b / chunkSize length c) (chunkSize length c)]
    have hq2 : b < chunkSize length c * (b / chunkSize length c + 1) := by
      have := Int.lt_ediv_add_one_mul_self b hcspos
      linarith [this,
        mul_comm (b / chunkSize length c + 1) (chunkSize length c)]
    by_cases hqc : b / chunkSize length c < c - 1
    · refine ⟨b / chunkSize length c, hq0, by omega, ?_, ?_⟩
      · rw [rangeFor_fst]; exact hq1
      · rw [rangeFor_snd_of_ne _ _ _ (by omega)]; exact hq2
    · refine ⟨c - 1, by omega, by omega, ?_, ?_⟩
      · rw [rangeFor_fst]
        have hmono : chunkSize length c * (c - 1) ≤
            chunkSize length c * (b / chunkSize length c) :=
          mul_le_mul_of_nonneg_left (by omega) cs0
        linarith
      · rw [hlast2]; linarith [hcc, hsum]

/-- The exact-partition property of the ranges computed for a transfer of
totalLength bytes at a given concurrency: one range per worker, the first
starts at 0, consecutive ranges are contiguous, earlier ranges end no later
than later ones start, the last range ends at totalLength, every byte of
[0, totalLength) is covered, the last range is chunkSize + remainder wide,
and the widths sum to totalLength. -/
def PlanPartitions (length c : Int) : Prop :=
  (planRanges length c).length = c.toNat ∧
  (rangeFor length c 0).1 = 0 ∧
  (∀ i : Int, 0 ≤ i → i + 1 < c →
    (rangeFor length c i).2 = (rangeFor length c (i + 1)).1) ∧
  (∀ i j : Int, 0 ≤ i → i < j → j < c →
    (rangeFor length c i).2 ≤ (rangeFor length c j).1) ∧
  (rangeFor length c (c - 1)).2 = length ∧
  (∀ b : Int, 0 ≤ b → b < length →
    ∃ i : Int, 0 ≤ i ∧ i < c ∧
      (rangeFor length c i).1 ≤ b ∧ b < (rangeFor length c i).2) ∧
  (rangeFor length c (c - 1)).2 - (rangeFor length c (c - 1)).1 =
    chunkSize length c + remainingSize length c ∧
  ((planRanges length c).map (fun r => r.2 - r.1)).sum = length

/-- C1: for every totalLength ≥ 0 and concurrency ≥ 1, the byte ranges
computed by parallelFetch (range i = [chunkSize*i, chunkSize*(i+1)) with the
last end extended by the remainder) partition [0, totalLength) exactly:
contiguous, non-overlapping, covering every byte, with the last range
chunkSize + remainder wide and the widths summing to totalLength. -/
theorem C1_ranges_partition (length c : Int) (h0 : 0 ≤ length) (h1 : 1 ≤ c) :
    PlanPartitions length c := by
  obtain ⟨cs0, rem0, remc, hsum⟩ := range_div_facts length c h0 h1
  have hcc : chunkSize length c * c = c * chunkSize length c := mul_comm _ _
  refine ⟨?_, ?_, ?_, ?_, ?_, ?_, ?_, ?_⟩
  · simp [planRanges]
  · rw [rangeFor_fst]; ring
  · intro i hi hic
    rw [rangeFor_snd_of_ne _ _ _ (by omega), rangeFor_fst]
  · intro i j hi hij hjc
    rw [rangeFor_snd_of_ne _ _ _ (by omega), rangeFor_fst]
    exact mul_le_mul_of_nonneg_left (by omega) cs0
  · rw [rangeFor_snd_last]; linarith [hcc, hsum]
  · exact ranges_cover length c h0 h1
  · rw [rangeFor_width, if_pos rfl]
  · exact planRanges_sum_widths length c h0 h1

/-- Witness for C1 at totalLength 10, concurrency 3 (an inexact division:
chunkSize 3, remainder 1). -/
theorem C1_ranges_partition_witness :
    (0 : Int) ≤ 10 ∧ (1 : Int) ≤ 3 ∧ PlanPartitions 10 3 :=
  ⟨by decide, by decide, C1_ranges_partition 10 3 (by decide) (by decide)⟩

/-! ## Trace shape lemmas -/

/-- A chunk worker emits only progress reports and GET requests. -/
theorem mem_fetchModel_events (total min max : Int) (pn : Bool) (env : ChunkEnv)
    (e : Event) (he : e ∈ (fetchModel total min max pn env).events) :
    (∃ r, e = Event.progress r) ∨ (∃ s, e = Event.get s) := by
  simp only [fetchModel] at he
  split at he
  · simp at he
  · split at he
    · rw [List.mem_append] at he
      rcases he with h | h
      · split at h
        · simp at h; exact Or.inl ⟨_, h⟩
        · simp at h
      · simp at h; exact Or.inr ⟨_, h⟩
    · split at he
      · rw [List.mem_append] at he
        rcases he with h | h
        · split at h
          · simp at h; exact Or.inl ⟨_, h⟩
          · simp at h
        · simp at h; exact Or.inr ⟨_, h⟩
      · rw [List.mem_append, List.mem_append] at he
        rcases he with (h | h) | h
        · split at h
          · simp at h; exact Or.inl ⟨_, h⟩
          · simp at h
        · simp at h; exact Or.inr ⟨_, h⟩
        · split at h
          · rw [List.mem_map] at h
            obtain ⟨w, _, hw⟩ := h
            exact Or.inl ⟨_, hw.symm⟩
          · simp at h

/-- The joined worker events consist only of progress reports, GET requests
and worker terminations. -/
theorem mem_workerEvents (gf : Fetcher) (length : Int) (pn : Bool) (env : PEnv)
    (e : Event) (he : e ∈ workerEvents gf length pn env) :
    (∃ r, e = Event.progress r) ∨ (∃ s, e = Event.get s) ∨
      (∃ i, e = Event.workerDone i) := by
  unfold workerEvents at he
  rw [List.mem_flatten] at he
  obtain ⟨s, hs, hes⟩ := he
  rw [List.mem_map] at hs
  obtain ⟨i, _, hsi⟩ := hs
  rw [← hsi, List.mem_append] at hes
  rcases hes with h | h
  · simp only [chunkOutcome] at h
    rcases mem_fetchModel_events _ _ _ _ _ _ h with h2 | h2
    · exact Or.inl h2
    · exact Or.inr (Or.inl h2)
  · simp at h
    exact Or.inr (Or.inr ⟨_, h⟩)

/-- No chunk worker ever closes the progress channel. -/
theorem workerEvents_noClose (gf : Fetcher) (length : Int) (pn : Bool)
    (env : PEnv) : ∀ e ∈ workerEvents gf length pn env, isClose e = false := by
  intro e he
  rcases mem_workerEvents gf length pn env e he with ⟨r, rfl⟩ | ⟨s, rfl⟩ | ⟨i, rfl⟩ <;> rfl

/-- countClose distributes over concatenation. -/
theorem countClose_append (a b : List Event) :
    countClose (a ++ b) = countClose a + countClose b := by
  unfold countClose
  rw [List.filter_append, List.length_append]

/-- A close-free trace has countClose zero. -/
theorem countClose_eq_zero (l : List Event) (h : ∀ e ∈ l, isClose e = false) :
    countClose l = 0 := by
  unfold countClose
  rw [List.filter_eq_nil_iff.mpr (fun e he => by simp [h e he])]
  rfl

/-- Appending a tail with no worker termination after a close, to a
close-free trace, yields a trace with no worker termination after a close. -/
theorem workerAfterClose_append (l t : List Event)
    (h : ∀ e ∈ l, isClose e = false) (ht : workerAfterClose t = false) :
    workerAfterClose (l ++ t) = false := by
  induction l with
  | nil => simpa using ht
  | cons e rest ih =>
    have he : isClose e = false := h e (List.mem_cons_self _ _)
    have hrest : ∀ x ∈ rest, isClose x = false :=
      fun x hx => h x (List.mem_cons_of_mem _ hx)
    cases e with
    | closeProgress => simp [isClose] at he
    | head => exact ih hrest
    | get s => exact ih hrest
    | progress r => exact ih hrest
    | workerDone i => exact ih hrest

/-- The deferred close, when the progress channel is non-nil. -/
theorem countClose_closeEv (pn : Bool) :
    countClose (if pn then [Event.closeProgress] else []) =
      if pn then 1 else 0 := by
  cases pn <;> rfl

/-- The deferred close alone never places a worker termination after a
close. -/
theorem closeEv_noWorkerAfter (pn : Bool) :
    workerAfterClose (if pn then [Event.closeProgress] else []) = false := by
  cases pn <;> rfl

/-- parallelFetch closes the progress channel exactly once when it is
non-nil, and never when it is nil, on every path (including the
division-by-zero panic path, where the deferred close still runs). -/
theorem parallelFetch_countClose (gf : Fetcher) (length : Int) (pn : Bool)
    (env : PEnv) :
    countClose (parallelFetchModel gf length pn env).trace =
      if pn then 1 else 0 := by
  simp only [parallelFetchModel]
  split
  · exact countClose_closeEv pn
  · split
    · exact countClose_closeEv pn
    · have hz := countClose_eq_zero _ (workerEvents_noClose gf length pn env)
      split
      · rw [countClose_append, hz, Nat.zero_add]; exact countClose_closeEv pn
      · split
        · rw [countClose_append, hz, Nat.zero_add]; exact countClose_closeEv pn
        · rw [countClose_append, hz, Nat.zero_add]; exact countClose_closeEv pn

/-- In a parallelFetch trace, no worker terminates after the close of the
progress channel: the deferred close runs only after the wg.Wait join. -/
theorem parallelFetch_workerAfterClose (gf : Fetcher) (length : Int)
    (pn : Bool) (env : PEnv) :
    workerAfterClose (parallelFetchModel gf length pn env).trace = false := by
  simp only [parallelFetchModel]
  split
  · exact closeEv_noWorkerAfter pn
  · split
    · exact closeEv_noWorkerAfter pn
    · have hn := workerEvents_noClose gf length pn env
      split
      · exact workerAfterClose_append _ _ hn (closeEv_noWorkerAfter pn)
      · split
        · exact workerAfterClose_append _ _ hn (closeEv_noWorkerAfter pn)
        · exact workerAfterClose_append _ _ hn (closeEv_noWorkerAfter pn)

/-- Once the workers are spawned, every one of them terminates (its wg.Done
appears in the trace), no matter whether it failed. -/
theorem parallelFetch_workerDone_mem (gf : Fetcher) (length : Int) (pn : Bool)
    (env : PEnv) (hc : gf.concurrency ≠ 0) (hm : env.mkdirOk = true)
    (i : Nat) (hi : i < gf.concurrency.toNat) :
    Event.workerDone i ∈ (parallelFetchModel gf length pn env).trace := by
  have hmem : Event.workerDone i ∈ workerEvents gf length pn env := by
    unfold workerEvents
    rw [List.mem_flatten]
    refine ⟨(chunkOutcome gf length pn env i).events ++ [Event.workerDone i],
      ?_, ?_⟩
    · exact List.mem_map.mpr ⟨i, List.mem_range.mpr hi, rfl⟩
    · simp
  simp only [parallelFetchModel]
  rw [if_neg hc, if_neg (by simp [hm])]
  split
  · exact List.mem_append.mpr (Or.inl hmem)
  · split
    · exact List.mem_append.mpr (Or.inl hmem)
    · exact List.mem_append.mpr (Or.inl hmem)

/-- When some chunk worker failed, parallelFetch fails with the aggregated
per-range errors and assembleChunks is never invoked. -/
theorem parallelFetch_result_aggregated (gf : Fetcher) (length : Int)
    (pn : Bool) (env : PEnv) (hc : gf.concurrency ≠ 0)
    (hm : env.mkdirOk = true) (he : chunkErrors gf length pn env ≠ []) :
    (parallelFetchModel gf length pn env).result =
      Except.error (FetchErr.aggregated (chunkErrors gf length pn env)) ∧
    (parallelFetchModel gf length pn env).assembleCalled = false := by
  simp only [parallelFetchModel]
  rw [if_neg hc, if_neg (by simp [hm]), if_pos he]
  exact ⟨rfl, rfl⟩

/-- When every chunk worker succeeded and assembly succeeds, parallelFetch
succeeds. -/
theorem parallelFetch_result_ok (gf : Fetcher) (length : Int) (pn : Bool)
    (env : PEnv) (hc : gf.concurrency ≠ 0) (hm : env.mkdirOk = true)
    (he : chunkErrors gf length pn env = []) (ha : env.assembleOk = true) :
    (parallelFetchModel gf length pn env).result = Except.ok () := by
  simp only [parallelFetchModel]
  rw [if_neg hc, if_neg (by simp [hm]), if_neg (by simpa using he),
    if_neg (by simp [ha])]

/-- parallelFetch succeeds only after invoking assembleChunks. -/
theorem parallelFetch_assembleCalled_ok (gf : Fetcher) (length : Int)
    (pn : Bool) (env : PEnv)
    (h : (parallelFetchModel gf length pn env).result = Except.ok ()) :
    (parallelFetchModel gf length pn env).assembleCalled = true := by
  simp only [parallelFetchModel] at h ⊢
  by_cases h1 : gf.concurrency = 0
  · rw [if_pos h1] at h; simp at h
  rw [if_neg h1] at h ⊢
  by_cases h2 : ¬ env.mkdirOk
  · rw [if_pos h2] at h; simp at h
  rw [if_neg h2] at h ⊢
  by_cases h3 : chunkErrors gf length pn env ≠ []
  · rw [if_pos h3] at h; simp at h
  rw [if_neg h3] at h ⊢
  by_cases h4 : ¬ env.assembleOk
  · rw [if_pos h4]
  · rw [if_neg h4]

/-- With concurrency 0, the division `length / concurrency` in parallelFetch
is a Go runtime panic. -/
theorem parallelFetch_zero_concurrency (gf : Fetcher) (length : Int)
    (pn : Bool) (env : PEnv) (hc : gf.concurrency = 0) :
    (parallelFetchModel gf length pn env).result =
      Except.error FetchErr.divideByZero := by
  simp only [parallelFetchModel]
  rw [if_pos hc]

/-- With negative concurrency, the worker loop never runs: parallelFetch
succeeds with no GET request at all (assembleChunks creates an empty
destination file). -/
theorem parallelFetch_neg_concurrency (gf : Fetcher) (length : Int)
    (pn : Bool) (env : PEnv) (hc : gf.concurrency < 0)
    (hm : env.mkdirOk = true) (ha : env.assembleOk = true) :
    (parallelFetchModel gf length pn env).result = Except.ok () ∧
    countGet (parallelFetchModel gf length pn env).trace = 0 := by
  have hn : gf.concurrency.toNat = 0 := by omega
  have hwe : workerEvents gf length pn env = [] := by
    unfold workerEvents
    rw [hn]
    rfl
  have hce : chunkErrors gf length pn env = [] := by
    unfold chunkErrors chunkOutcomes
    rw [hn]
    rfl
  simp only [parallelFetchModel]
  rw [if_neg (by omega : ¬ gf.concurrency = 0), if_neg (by simp [hm]),
    if_neg (by simp [hce]), if_neg (by simp [ha])]
  refine ⟨rfl, ?_⟩
  show countGet (workerEvents gf length pn env ++
    (if pn then [Event.closeProgress] else [])) = 0
  rw [hwe]
  cases pn <;> rfl

/-- The FETCH phase returns the Fetcher and markers unchanged, its trace is
the pre-trace followed by the parallelFetch trace, and it never reports a
cache skip. -/
theorem fetchPhase_components (gf : Fetcher) (markers : List (String × String))
    (preTrace : List Event) (length : Int) (pn : Bool) (w : World)
    (destWas : Bool) :
    (fetchPhase gf markers preTrace length pn w destWas).fetcher = gf ∧
    (fetchPhase gf markers preTrace length pn w destWas).markers = markers ∧
    (fetchPhase gf markers preTrace length pn w destWas).trace =
      preTrace ++ (parallelFetchModel gf length pn w.penv).trace ∧
    (fetchPhase gf markers preTrace length pn w destWas).skipped = false := by
  simp only [fetchPhase]
  split
  · exact ⟨rfl, rfl, rfl, rfl⟩
  · split
    · split
      · exact ⟨rfl, rfl, rfl, rfl⟩
      · exact ⟨rfl, rfl, rfl, rfl⟩
    · exact ⟨rfl, rfl, rfl, rfl⟩

example : chunkSize 10 3 = 3 := by decide
example : remainingSize 10 3 = 1 := by decide
example : planRanges 10 3 = [(0, 3), (3, 6), (6, 10)] := by decide
example : planRanges (-1) 1 = [(0, -1)] := by decide
example : planRanges (-1) 3 = [(0, 0), (0, 0), (0, -1)] := by decide
example : planRanges 5 (-2) = [] := by decide
example : rangeHeader 0 (-1) = "bytes=0-" := by decide
example : rangeHeader 3 6 = "bytes=3-5" := by decide
example : fetchModel 10 0 5 true ⟨5, true, true, [2]⟩ = ⟨[], none⟩ := by decide

/-- Reduction of Fetcher.Fetch to the FETCH phase when ETag tracking is
disabled and the preflight succeeded. -/
theorem FetchModel_noEtag (gf : Fetcher) (url : String) (pn : Bool)
    (head : HeadResponse) (w : World) (hu : ¬ url = "") (hok : head.ok = true)
    (hs : head.status2xx = true) (he : gf.etag = false) :
    FetchModel gf url pn head w =
      fetchPhase
        (if head.acceptRangesBytes then gf else { gf with concurrency := 1 })
        w.markers [Event.head] head.contentLength pn w w.destSize.isSome := by
  simp only [FetchModel]
  rw [if_neg hu, if_neg (by simp [hok]), if_neg (by simp [hs])]
  have hetag :
      (if head.acceptRangesBytes then gf
        else { gf with concurrency := 1 }).etag = false := by
    split <;> simp [he]
  rw [if_neg (by simp [hetag])]

/-- Reduction of Fetcher.Fetch to the ETag branch when tracking is enabled,
the preflight succeeded and the server supplied a token. -/
theorem FetchModel_etag_reduce (gf : Fetcher) (url : String) (pn : Bool)
    (head : HeadResponse) (w : World) (hu : ¬ url = "") (hok : head.ok = true)
    (hs : head.status2xx = true) (he : gf.etag = true)
    (ht : ¬ trimQuotes head.etagHeader = "") :
    FetchModel gf url pn head w =
      (if markerMem w.markers (baseName url, trimQuotes head.etagHeader) then
        if w.destSize = some head.contentLength then
          { fetcher :=
              (if head.acceptRangesBytes then gf
                else { gf with concurrency := 1 }),
            markers := w.markers,
            trace := [Event.head] ++ (if pn then [Event.closeProgress] else []),
            result := Except.ok (), skipped := true,
            destPresent := w.destSize.isSome }
        else
          fetchPhase
            (if head.acceptRangesBytes then gf
              else { gf with concurrency := 1 })
            w.markers [Event.head] head.contentLength pn w w.destSize.isSome
      else if ¬ w.createMarkerOk then
        { fetcher :=
            (if head.acceptRangesBytes then gf
              else { gf with concurrency := 1 }),
          markers := w.markers, trace := [Event.head],
          result := Except.error FetchErr.createMarkerFailed, skipped := false,
          destPresent := w.destSize.isSome }
      else
        fetchPhase
          (if head.acceptRangesBytes then gf
            else { gf with concurrency := 1 })
          (w.markers ++ [(baseName url, trimQuotes head.etagHeader)])
          [Event.head] head.contentLength pn w w.destSize.isSome) := by
  simp only [FetchModel]
  rw [if_neg hu, if_neg (by simp [hok]), if_neg (by simp [hs])]
  have hetag :
      (if head.acceptRangesBytes then gf
        else { gf with concurrency := 1 }).etag = true := by
    split <;> simp [he]
  rw [if_pos (by simp [hetag]), if_neg ht]

/-- The Fetcher returned by Fetch is the input Fetcher, with concurrency
forced to 1 when the preflight lacked byte-range support, on every
non-preflight-failure path. -/
theorem FetchModel_fetcher_eq (gf : Fetcher) (url : String) (pn : Bool)
    (head : HeadResponse) (w : World) (hu : ¬ url = "")
    (hok : head.ok = true) (hs : head.status2xx = true) :
    (FetchModel gf url pn head w).fetcher =
      (if head.acceptRangesBytes then gf else { gf with concurrency := 1 }) := by
  simp only [FetchModel]
  rw [if_neg hu, if_neg (by simp [hok]), if_neg (by simp [hs])]
  repeat' split
  all_goals first
    | rfl
    | exact (fetchPhase_components _ _ _ _ _ _ _).1

/-- When the download succeeded but the configured digest mismatches, the
FETCH phase fails with the checksum error carrying both digests, and the
assembled destination file is present. -/
theorem fetchPhase_verify_mismatch (gf : Fetcher)
    (markers : List (String × String)) (preTrace : List Event) (length : Int)
    (pn : Bool) (w : World) (destWas : Bool)
    (hpf : (parallelFetchModel gf length pn w.penv).result = Except.ok ())
    (hne : gf.algorithm ≠ "") (halg : gf.algorithm ∈ supportedAlgorithms)
    (hmm : w.computedDigest ≠ gf.checksum) :
    (fetchPhase gf markers preTrace length pn w destWas).result =
      Except.error (FetchErr.checksumMismatch w.computedDigest gf.checksum) ∧
    (fetchPhase gf markers preTrace length pn w destWas).destPresent = true := by
  have hac := parallelFetch_assembleCalled_ok gf length pn w.penv hpf
  have hv : verifyModel gf.algorithm gf.checksum w.computedDigest =
      Except.error (FetchErr.checksumMismatch w.computedDigest gf.checksum) := by
    unfold verifyModel
    rw [if_pos halg, if_pos hmm]
  simp [fetchPhase, hpf, hac, hv, hne]

/-- In a FETCH-phase trace with a non-nil progress channel, the channel is
closed exactly once and never before a worker termination. -/
theorem fetchPhase_close_once (gf : Fetcher) (markers : List (String × String))
    (length : Int) (w : World) (destWas : Bool) :
    countClose (fetchPhase gf markers [Event.head] length true w destWas).trace
      = 1 ∧
    workerAfterClose
      (fetchPhase gf markers [Event.head] length true w destWas).trace
      = false := by
  obtain ⟨-, -, htr, -⟩ :=
    fetchPhase_components gf markers [Event.head] length true w destWas
  rw [htr]
  constructor
  · rw [countClose_append, parallelFetch_countClose]
    decide
  · refine workerAfterClose_append _ _ ?_
      (parallelFetch_workerAfterClose gf length true w.penv)
    intro e he
    rw [List.mem_singleton] at he
    subst he
    rfl

/-! ## Sample inputs used by the concrete witnesses -/

/-- A chunk environment in which the GET succeeds and three bytes arrive. -/
def chunkEnvOk : ChunkEnv :=
  { currFileSize := 0, getOk := true, status2xx := true, bodyWrites := [3] }

/-- A chunk environment whose GET returns a non-2xx status. -/
def chunkEnvFail : ChunkEnv :=
  { currFileSize := 0, getOk := true, status2xx := false, bodyWrites := [] }

/-- A parallelFetch environment in which everything succeeds. -/
def penvOk : PEnv :=
  { mkdirOk := true, chunk := fun _ => chunkEnvOk, assembleOk := true }

/-- A parallelFetch environment in which chunk worker 1 fails. -/
def penvFail1 : PEnv :=
  { mkdirOk := true, chunk := fun i => if i = 1 then chunkEnvFail else chunkEnvOk,
    assembleOk := true }

/-- A plain two-way-parallel Fetcher with no ETag tracking or checksum. -/
def gfPlain : Fetcher :=
  { destDir := "./", etag := false, concurrency := 2, algorithm := "",
    checksum := "" }

/-- A Fetcher configured with a negative concurrency. -/
def gfNeg : Fetcher := { gfPlain with concurrency := -1 }

/-- A single-stream Fetcher with ETag tracking enabled. -/
def gfEtag : Fetcher := { gfPlain with etag := true, concurrency := 1 }

/-- A single-stream Fetcher configured to verify a sha256 checksum "aa". -/
def gfChecksum : Fetcher :=
  { gfPlain with concurrency := 1, algorithm := "sha256", checksum := "aa" }

/-- A successful HEAD response: 10 bytes, byte ranges supported, a quoted
ETag. -/
def headOk : HeadResponse :=
  { ok := true, status2xx := true, acceptRangesBytes := true,
    contentLength := 10, etagHeader := "\"abc\"" }

/-- A HEAD response that omits Content-Length but advertises byte-range
support. -/
def headNoLen : HeadResponse := { headOk with contentLength := -1, etagHeader := "" }

/-- A world with no cache markers and no pre-existing destination file, in
which downloads succeed; the computed digest is "bb". -/
def worldOk : World :=
  { markers := [], destSize := none, createMarkerOk := true, penv := penvOk,
    computedDigest := "bb" }

/-- worldOk with chunk worker 1 failing. -/
def worldFail : World := { worldOk with penv := penvFail1 }

/-- parallelFetch returns either success or one of its four error shapes. -/
theorem parallelFetch_result_cases (gf : Fetcher) (length : Int) (pn : Bool)
    (env : PEnv) :
    (parallelFetchModel gf length pn env).result = Except.ok () ∨
    (parallelFetchModel gf length pn env).result =
      Except.error FetchErr.divideByZero ∨
    (parallelFetchModel gf length pn env).result =
      Except.error FetchErr.mkdirFailed ∨
    (∃ es, (parallelFetchModel gf length pn env).result =
      Except.error (FetchErr.aggregated es)) ∨
    (parallelFetchModel gf length pn env).result =
      Except.error FetchErr.assembleFailed := by
  simp only [parallelFetchModel]
  repeat' split
  all_goals first
    | exact Or.inl rfl
    | exact Or.inr (Or.inl rfl)
    | exact Or.inr (Or.inr (Or.inl rfl))
    | exact Or.inr (Or.inr (Or.inr (Or.inl ⟨_, rfl⟩)))
    | exact Or.inr (Or.inr (Or.inr (Or.inr rfl)))

/-- verify returns success, a checksum mismatch carrying both digests, or an
unsupported-algorithm error. -/
theorem verifyModel_result_cases (a c d : String) :
    verifyModel a c d = Except.ok () ∨
    verifyModel a c d = Except.error (FetchErr.checksumMismatch d c) ∨
    verifyModel a c d = Except.error (FetchErr.unsupportedAlgorithm a) := by
  unfold verifyModel
  repeat' split
  · exact Or.inr (Or.inl rfl)
  · exact Or.inl rfl
  · exact Or.inr (Or.inr rfl)

/-- The FETCH phase never produces one of the pre-download failures: those
are returned before parallelFetch is entered. -/
theorem fetchPhase_not_preDownloadFailure (gf : Fetcher)
    (markers : List (String × String)) (preTrace : List Event) (length : Int)
    (pn : Bool) (w : World) (destWas : Bool) :
    isPreDownloadFailure
      (fetchPhase gf markers preTrace length pn w destWas).result = false := by
  rcases parallelFetch_result_cases gf length pn w.penv with
    h | h | h | ⟨es, h⟩ | h <;>
    simp only [fetchPhase, h] <;> try rfl
  rcases verifyModel_result_cases gf.algorithm gf.checksum w.computedDigest with
    hv | hv | hv <;>
    simp only [hv] <;> split <;> rfl

/-- C2 (counterexample): Fetch invoked with an empty URL and a non-nil
progress channel returns the configuration error urlRequired without ever
closing the progress channel, so the claim that the channel is closed
exactly once on every path — including configuration failures — is false. -/
theorem C2_counterexample :
    countClose (FetchModel gfPlain "" true headOk worldOk).trace = 0 ∧
    (FetchModel gfPlain "" true headOk worldOk).result =
      Except.error FetchErr.urlRequired :=
  ⟨rfl, rfl⟩

/-- C2 (amended): with a non-nil progress channel, the channel is closed at
most once; it is closed exactly once on every path that gets past URL
validation, the preflight and marker creation (in particular whenever chunk
workers run, on success and failure alike, and on the cache-hit path), and
the close never precedes a worker termination; on the pre-download failure
paths (empty URL, HEAD transport error, non-2xx preflight, marker-creation
failure) the channel is never closed. -/
theorem C2_close_semantics (gf : Fetcher) (url : String) (head : HeadResponse)
    (w : World) :
    countClose (FetchModel gf url true head w).trace ≤ 1 ∧
    (isPreDownloadFailure (FetchModel gf url true head w).result = false →
      countClose (FetchModel gf url true head w).trace = 1) ∧
    (isPreDownloadFailure (FetchModel gf url true head w).result = true →
      countClose (FetchModel gf url true head w).trace = 0) ∧
    workerAfterClose (FetchModel gf url true head w).trace = false := by
  simp only [FetchModel]
  repeat' split
  all_goals first
    | (refine ⟨?_, ?_, ?_, ?_⟩ <;>
        simp [countClose, isClose, isPreDownloadFailure, workerAfterClose,
          isWorkerDone])
    | (refine ⟨le_of_eq (fetchPhase_close_once _ _ _ _ _).1,
        fun _ => (fetchPhase_close_once _ _ _ _ _).1, ?_,
        (fetchPhase_close_once _ _ _ _ _).2⟩
       intro hpre
       rw [fetchPhase_not_preDownloadFailure] at hpre
       exact Bool.noConfusion hpre)
  all_goals exact absurd trivial ‹¬True›

/-- Witness for C2 (amended): a two-way download in which chunk worker 1
fails with a non-2xx status; the call is not a pre-download failure and the
progress channel is closed exactly once. -/
theorem C2_close_semantics_witness :
    isPreDownloadFailure (FetchModel gfPlain "u/f" true headOk worldFail).result
      = false ∧
    countClose (FetchModel gfPlain "u/f" true headOk worldFail).trace = 1 :=
  ⟨rfl, (C2_close_semantics gfPlain "u/f" headOk worldFail).2.1 rfl⟩

/-- A chunk temp file that is already complete: 5 bytes on disk for a
5-byte-wide range. -/
def chunkEnvDone : ChunkEnv :=
  { currFileSize := 5, getOk := true, status2xx := true, bodyWrites := [2] }

/-- C3 (counterexample): a chunk whose temp file size 5 already equals its
range width 5 returns success with zero network requests but emits zero
progress events — not exactly one event with writtenBytes = 5 as claimed:
the completeness early-return precedes the initial progress report. -/
theorem C3_counterexample :
    (fetchModel 100 0 5 true chunkEnvDone).events = [] ∧
    (fetchModel 100 0 5 true chunkEnvDone).err = none ∧
    countProgress (fetchModel 100 0 5 true chunkEnvDone).events = 0 :=
  ⟨rfl, rfl, rfl⟩

/-- C3 (amended): for every chunk whose on-disk temp file size n equals its
range width with n > 0, the per-range fetch performs zero network requests,
returns success, and reports zero progress events. -/
theorem C3_complete_chunk (total min max : Int) (pn : Bool) (env : ChunkEnv)
    (h1 : env.currFileSize = max - min) (h2 : 0 < env.currFileSize) :
    (fetchModel total min max pn env).events = [] ∧
    countGet (fetchModel total min max pn env).events = 0 ∧
    countProgress (fetchModel total min max pn env).events = 0 ∧
    (fetchModel total min max pn env).err = none := by
  have hcond : env.currFileSize > 0 ∧ env.currFileSize = max - min := ⟨h2, h1⟩
  simp only [fetchModel]
  rw [if_pos hcond]
  exact ⟨rfl, rfl, rfl, rfl⟩

/-- Witness for C3 (amended) on the 5-byte complete chunk. -/
theorem C3_complete_chunk_witness :
    chunkEnvDone.currFileSize = 5 - 0 ∧ (0 : Int) < chunkEnvDone.currFileSize ∧
    ((fetchModel 100 0 5 true chunkEnvDone).events = [] ∧
      countGet (fetchModel 100 0 5 true chunkEnvDone).events = 0 ∧
      countProgress (fetchModel 100 0 5 true chunkEnvDone).events = 0 ∧
      (fetchModel 100 0 5 true chunkEnvDone).err = none) :=
  ⟨by decide, by decide,
    C3_complete_chunk 100 0 5 true chunkEnvDone (by decide) (by decide)⟩

/-- C4: once workers are spawned, if any per-range fetch fails then every
sibling still terminates (its wg.Done is in the trace), parallelFetch fails
with the single aggregated error combining every per-range failure and never
invokes assembleChunks; assembleChunks is invoked only when every chunk task
succeeded. -/
theorem C4_failure_aggregation (gf : Fetcher) (length : Int) (pn : Bool)
    (env : PEnv) (hc : gf.concurrency ≠ 0) (hm : env.mkdirOk = true) :
    (chunkErrors gf length pn env ≠ [] →
      (parallelFetchModel gf length pn env).result =
        Except.error (FetchErr.aggregated (chunkErrors gf length pn env)) ∧
      (parallelFetchModel gf length pn env).assembleCalled = false ∧
      ∀ i : Nat, i < gf.concurrency.toNat →
        Event.workerDone i ∈ (parallelFetchModel gf length pn env).trace) ∧
    ((parallelFetchModel gf length pn env).assembleCalled = true →
      chunkErrors gf length pn env = []) := by
  constructor
  · intro he
    obtain ⟨h1, h2⟩ := parallelFetch_result_aggregated gf length pn env hc hm he
    exact ⟨h1, h2,
      fun i hi => parallelFetch_workerDone_mem gf length pn env hc hm i hi⟩
  · intro hac
    by_cases he : chunkErrors gf length pn env = []
    · exact he
    · obtain ⟨-, h2⟩ := parallelFetch_result_aggregated gf length pn env hc hm he
      rw [h2] at hac
      exact Bool.noConfusion hac

/-- Witness for C4: two workers, worker 1 fails with a non-2xx status. -/
theorem C4_failure_aggregation_witness :
    gfPlain.concurrency ≠ 0 ∧ penvFail1.mkdirOk = true ∧
    ((chunkErrors gfPlain 10 true penvFail1 ≠ [] →
      (parallelFetchModel gfPlain 10 true penvFail1).result =
        Except.error (FetchErr.aggregated (chunkErrors gfPlain 10 true penvFail1)) ∧
      (parallelFetchModel gfPlain 10 true penvFail1).assembleCalled = false ∧
      ∀ i : Nat, i < gfPlain.concurrency.toNat →
        Event.workerDone i ∈ (parallelFetchModel gfPlain 10 true penvFail1).trace) ∧
    ((parallelFetchModel gfPlain 10 true penvFail1).assembleCalled = true →
      chunkErrors gfPlain 10 true penvFail1 = [])) :=
  ⟨by decide, rfl, C4_failure_aggregation gfPlain 10 true penvFail1 (by decide) rfl⟩

/-- C8 (counterexample): with requested concurrency -1 (below 1), Fetch does
not fail with a configuration error: the worker loop spawns no workers, the
chunk errors are empty, and the call succeeds, returning the (empty)
assembled file. -/
theorem C8_counterexample :
    gfNeg.concurrency < 1 ∧
    (FetchModel gfNeg "u/f" false headOk worldOk).result = Except.ok () :=
  ⟨by decide, rfl⟩

/-- C8 (amended): no concurrency validation exists.  A negative requested
concurrency spawns zero chunk workers and the fetch succeeds without any GET
request, producing an empty assembled file; requested concurrency 0 makes
the chunk-size division a runtime panic (division by zero). -/
theorem C8_no_validation (gf : Fetcher) (length : Int) (pn : Bool)
    (env : PEnv) :
    (gf.concurrency < 0 → env.mkdirOk = true → env.assembleOk = true →
      (parallelFetchModel gf length pn env).result = Except.ok () ∧
      countGet (parallelFetchModel gf length pn env).trace = 0) ∧
    (gf.concurrency = 0 →
      (parallelFetchModel gf length pn env).result =
        Except.error FetchErr.divideByZero) :=
  ⟨fun hc hm ha => parallelFetch_neg_concurrency gf length pn env hc hm ha,
    fun hc => parallelFetch_zero_concurrency gf length pn env hc⟩

/-- Witness for C8 (amended) at concurrency -1. -/
theorem C8_no_validation_witness :
    gfNeg.concurrency < 0 ∧ penvOk.mkdirOk = true ∧ penvOk.assembleOk = true ∧
    ((parallelFetchModel gfNeg 10 true penvOk).result = Except.ok () ∧
      countGet (parallelFetchModel gfNeg 10 true penvOk).trace = 0) :=
  ⟨by decide, rfl, rfl,
    (C8_no_validation gfNeg 10 true penvOk).1 (by decide) rfl rfl⟩

/-- A HEAD response that advertises no byte-range support and omits
Content-Length. -/
def headNoRange : HeadResponse :=
  { ok := true, status2xx := true, acceptRangesBytes := false,
    contentLength := -1, etagHeader := "" }

/-- A parallelFetch environment in which every chunk worker fails. -/
def penvFail0 : PEnv :=
  { mkdirOk := true, chunk := fun _ => chunkEnvFail, assembleOk := true }

/-- A world holding a cache marker for token "abc" of file "f", with the
destination file fully present (10 bytes). -/
def worldHit : World :=
  { markers := [("f", "abc")], destSize := some 10, createMarkerOk := true,
    penv := penvOk, computedDigest := "bb" }

/-- A world with no markers in which every chunk worker fails. -/
def worldFailDL : World := { worldOk with penv := penvFail0 }

/-- C5: with ETag tracking enabled and a token supplied by the server, Fetch
skips downloading and returns a handle to the existing local file if and
only if a marker for that exact token exists and the local destination
file size equals the server-reported content length; on a skip the call
succeeds, issues no GET request and emits zero progress events. -/
theorem C5_etag_skip (gf : Fetcher) (url : String) (pn : Bool)
    (head : HeadResponse) (w : World) (hu : ¬ url = "") (hok : head.ok = true)
    (hs : head.status2xx = true) (he : gf.etag = true)
    (ht : ¬ trimQuotes head.etagHeader = "") :
    ((FetchModel gf url pn head w).skipped = true ↔
      (markerMem w.markers (baseName url, trimQuotes head.etagHeader) = true ∧
        w.destSize = some head.contentLength)) ∧
    ((FetchModel gf url pn head w).skipped = true →
      (FetchModel gf url pn head w).result = Except.ok () ∧
      countGet (FetchModel gf url pn head w).trace = 0 ∧
      countProgress (FetchModel gf url pn head w).trace = 0) := by
  rw [FetchModel_etag_reduce gf url pn head w hu hok hs he ht]
  by_cases hmk :
    markerMem w.markers (baseName url, trimQuotes head.etagHeader) = true
  · rw [if_pos hmk]
    by_cases hds : w.destSize = some head.contentLength
    · rw [if_pos hds]
      refine ⟨by simp [hmk, hds], fun _ => ⟨rfl, ?_, ?_⟩⟩
      · cases pn <;> rfl
      · cases pn <;> rfl
    · rw [if_neg hds, (fetchPhase_components _ _ _ _ _ _ _).2.2.2]
      constructor
      · simp [hds]
      · intro h; exact Bool.noConfusion h
  · rw [if_neg hmk]
    by_cases hcm : ¬ w.createMarkerOk
    · rw [if_pos hcm]
      constructor
      · simp [hmk]
      · intro h; exact Bool.noConfusion h
    · rw [if_neg hcm, (fetchPhase_components _ _ _ _ _ _ _).2.2.2]
      constructor
      · simp [hmk]
      · intro h; exact Bool.noConfusion h

/-- Witness for C5: a second fetch of an unchanged 10-byte resource with a
cached marker for token "abc" and a matching local size skips with no GET
and no progress events. -/
theorem C5_etag_skip_witness :
    ¬ "u/f" = "" ∧ headOk.ok = true ∧ headOk.status2xx = true ∧
    gfEtag.etag = true ∧ ¬ trimQuotes headOk.etagHeader = "" ∧
    (((FetchModel gfEtag "u/f" true headOk worldHit).skipped = true ↔
      (markerMem worldHit.markers
        (baseName "u/f", trimQuotes headOk.etagHeader) = true ∧
        worldHit.destSize = some headOk.contentLength)) ∧
    ((FetchModel gfEtag "u/f" true headOk worldHit).skipped = true →
      (FetchModel gfEtag "u/f" true headOk worldHit).result = Except.ok () ∧
      countGet (FetchModel gfEtag "u/f" true headOk worldHit).trace = 0 ∧
      countProgress (FetchModel gfEtag "u/f" true headOk worldHit).trace = 0)) :=
  ⟨by decide, rfl, rfl, rfl, by decide,
    C5_etag_skip gfEtag "u/f" true headOk worldHit (by decide) rfl rfl rfl
      (by decide)⟩

/-- C6 (counterexample): the server omits Content-Length (length -1) but
advertises byte-range support; with requested concurrency 2 the effective
concurrency stays 2 and the planner produces two ranges ([0, 0) and the
open-ended [0, -1)), not exactly one range with concurrency forced to 1. -/
theorem C6_counterexample :
    headNoLen.contentLength = -1 ∧
    (FetchModel gfPlain "u/f" false headNoLen worldOk).fetcher.concurrency = 2 ∧
    planRanges (-1) 2 = [(0, 0), (0, -1)] :=
  ⟨rfl, rfl, by decide⟩

/-- C6 (amended): the effective concurrency is forced to 1 when (and because)
the preflight response does not advertise `Accept-Ranges: bytes`; at
concurrency 1 the planner produces exactly one range [0, totalLength)
spanning the whole resource, which for unknown length -1 is the open-ended
range `bytes=0-`. -/
theorem C6_no_range_support_single (gf : Fetcher) (url : String) (pn : Bool)
    (head : HeadResponse) (w : World) (hu : ¬ url = "") (hok : head.ok = true)
    (hs : head.status2xx = true) (har : head.acceptRangesBytes = false) :
    (FetchModel gf url pn head w).fetcher.concurrency = 1 ∧
    planRanges head.contentLength 1 = [(0, head.contentLength)] ∧
    rangeHeader 0 (-1) = "bytes=0-" := by
  refine ⟨?_, ?_, rfl⟩
  · rw [FetchModel_fetcher_eq gf url pn head w hu hok hs,
      if_neg (by simp [har])]
  · have h1 : List.range 1 = [0] := rfl
    norm_num [planRanges, rangeFor, chunkSize, remainingSize, Int.tdiv_one,
      Int.tmod_one, h1]

/-- Witness for C6 (amended): a server without byte-range support and
unknown length forces a requested concurrency of 2 down to 1. -/
theorem C6_no_range_support_single_witness :
    ¬ "u/f" = "" ∧ headNoRange.ok = true ∧ headNoRange.status2xx = true ∧
    headNoRange.acceptRangesBytes = false ∧
    ((FetchModel gfPlain "u/f" true headNoRange worldOk).fetcher.concurrency
        = 1 ∧
      planRanges headNoRange.contentLength 1 =
        [(0, headNoRange.contentLength)] ∧
      rangeHeader 0 (-1) = "bytes=0-") :=
  ⟨by decide, rfl, rfl, rfl,
    C6_no_range_support_single gfPlain "u/f" true headNoRange worldOk
      (by decide) rfl rfl rfl⟩

/-- C7: when the download phase succeeds, integrity verification is
configured with a supported algorithm, and the computed digest differs from
the expected one, Fetch fails with the checksum error carrying both the
computed and the expected digests, and the assembled destination file is
still present on disk. -/
theorem C7_integrity_mismatch (gf : Fetcher) (url : String) (pn : Bool)
    (head : HeadResponse) (w : World) (hu : ¬ url = "") (hok : head.ok = true)
    (hs : head.status2xx = true) (har : head.acceptRangesBytes = true)
    (he : gf.etag = false)
    (hpf : (parallelFetchModel gf head.contentLength pn w.penv).result =
      Except.ok ())
    (hne : gf.algorithm ≠ "") (halg : gf.algorithm ∈ supportedAlgorithms)
    (hmm : w.computedDigest ≠ gf.checksum) :
    (FetchModel gf url pn head w).result =
      Except.error (FetchErr.checksumMismatch w.computedDigest gf.checksum) ∧
    (FetchModel gf url pn head w).destPresent = true := by
  rw [FetchModel_noEtag gf url pn head w hu hok hs he, if_pos har]
  exact fetchPhase_verify_mismatch gf w.markers [Event.head] head.contentLength
    pn w w.destSize.isSome hpf hne halg hmm

/-- Witness for C7: a successful 10-byte single-stream download whose sha256
digest "bb" differs from the expected "aa". -/
theorem C7_integrity_mismatch_witness :
    ¬ "u/f" = "" ∧ headOk.ok = true ∧ headOk.status2xx = true ∧
    headOk.acceptRangesBytes = true ∧ gfChecksum.etag = false ∧
    (parallelFetchModel gfChecksum headOk.contentLength true worldOk.penv).result
      = Except.ok () ∧
    gfChecksum.algorithm ≠ "" ∧ gfChecksum.algorithm ∈ supportedAlgorithms ∧
    worldOk.computedDigest ≠ gfChecksum.checksum ∧
    ((FetchModel gfChecksum "u/f" true headOk worldOk).result =
      Except.error (FetchErr.checksumMismatch worldOk.computedDigest
        gfChecksum.checksum) ∧
    (FetchModel gfChecksum "u/f" true headOk worldOk).destPresent = true) :=
  ⟨by decide, rfl, rfl, rfl, rfl, rfl, by decide, by decide, by decide,
    C7_integrity_mismatch gfChecksum "u/f" true headOk worldOk (by decide) rfl
      rfl rfl rfl rfl (by decide) (by decide) (by decide)⟩

/-- C9 (counterexample): with ETag tracking on, an unseen token "abc" gets
its marker created before the download, and the download then fails: the
final state holds a marker for ("f", "abc") although no download for that
token ever completed, refuting the claim that a marker is present only if a
prior download for that exact token completed. -/
theorem C9_counterexample :
    (FetchModel gfEtag "u/f" false headOk worldFailDL).markers =
      [("f", "abc")] ∧
    (FetchModel gfEtag "u/f" false headOk worldFailDL).result =
      Except.error (FetchErr.aggregated [ChunkErr.non2xx]) :=
  ⟨rfl, rfl⟩

/-- C9 (amended): with ETag tracking and a server-supplied token, the marker
for (file, token) is created the first time the token is observed — before
the download runs and regardless of its outcome — and an existing marker is
never updated, only checked for existence. -/
theorem C9_marker_lifecycle (gf : Fetcher) (url : String) (pn : Bool)
    (head : HeadResponse) (w : World) (hu : ¬ url = "") (hok : head.ok = true)
    (hs : head.status2xx = true) (he : gf.etag = true)
    (ht : ¬ trimQuotes head.etagHeader = "") :
    (markerMem w.markers (baseName url, trimQuotes head.etagHeader) = true →
      (FetchModel gf url pn head w).markers = w.markers) ∧
    (¬ markerMem w.markers (baseName url, trimQuotes head.etagHeader) = true →
      w.createMarkerOk = true →
      (FetchModel gf url pn head w).markers =
        w.markers ++ [(baseName url, trimQuotes head.etagHeader)]) := by
  rw [FetchModel_etag_reduce gf url pn head w hu hok hs he ht]
  constructor
  · intro hmk
    rw [if_pos hmk]
    by_cases hds : w.destSize = some head.contentLength
    · rw [if_pos hds]
    · rw [if_neg hds]
      exact (fetchPhase_components _ _ _ _ _ _ _).2.1
  · intro hmk hcm
    rw [if_neg hmk, if_neg (by simp [hcm])]
    exact (fetchPhase_components _ _ _ _ _ _ _).2.1

/-- Witness for C9 (amended): the failing download of the counterexample
still creates the marker, and a fetch that already has the marker leaves the
marker set unchanged. -/
theorem C9_marker_lifecycle_witness :
    ¬ "u/f" = "" ∧ headOk.ok = true ∧ headOk.status2xx = true ∧
    gfEtag.etag = true ∧ ¬ trimQuotes headOk.etagHeader = "" ∧
    ¬ markerMem worldFailDL.markers
      (baseName "u/f", trimQuotes headOk.etagHeader) = true ∧
    worldFailDL.createMarkerOk = true ∧
    (FetchModel gfEtag "u/f" false headOk worldFailDL).markers =
      worldFailDL.markers ++ [(baseName "u/f", trimQuotes headOk.etagHeader)] :=
  ⟨by decide, rfl, rfl, rfl, by decide, by decide, rfl,
    (C9_marker_lifecycle gfEtag "u/f" false headOk worldFailDL (by decide) rfl
      rfl rfl (by decide)).2 (by decide) rfl⟩

/-- C10: when the preflight response lacks `Accept-Ranges: bytes`, Fetch
mutates the Fetcher it was called on: its concurrency field becomes 1 and
stays 1, so any subsequent Fetch on the same instance — even against a
server that does advertise byte-range support — keeps concurrency 1 and
spawns exactly one chunk worker. -/
theorem C10_concurrency_mutation (gf : Fetcher) (url : String) (pn : Bool)
    (head : HeadResponse) (w : World) (hu : ¬ url = "") (hok : head.ok = true)
    (hs : head.status2xx = true) (har : head.acceptRangesBytes = false) :
    (FetchModel gf url pn head w).fetcher.concurrency = 1 ∧
    (∀ (url2 : String) (pn2 : Bool) (head2 : HeadResponse) (w2 : World),
      ¬ url2 = "" → head2.ok = true → head2.status2xx = true →
      head2.acceptRangesBytes = true →
      (FetchModel (FetchModel gf url pn head w).fetcher url2 pn2 head2
        w2).fetcher.concurrency = 1 ∧
      (chunkOutcomes (FetchModel gf url pn head w).fetcher head2.contentLength
        pn2 w2.penv).length = 1) := by
  have h1 : (FetchModel gf url pn head w).fetcher =
      { gf with concurrency := 1 } := by
    rw [FetchModel_fetcher_eq gf url pn head w hu hok hs,
      if_neg (by simp [har])]
  refine ⟨by rw [h1], fun url2 pn2 head2 w2 hu2 hok2 hs2 har2 => ⟨?_, ?_⟩⟩
  · rw [FetchModel_fetcher_eq _ url2 pn2 head2 w2 hu2 hok2 hs2, if_pos har2,
      h1]
  · rw [h1]
    simp [chunkOutcomes]

/-- Witness for C10: a fetch against a server without range support turns a
concurrency-2 Fetcher into a concurrency-1 Fetcher, and a second fetch on
the mutated instance against a range-supporting server stays at 1. -/
theorem C10_concurrency_mutation_witness :
    ¬ "u/f" = "" ∧ headNoRange.ok = true ∧ headNoRange.status2xx = true ∧
    headNoRange.acceptRangesBytes = false ∧
    (FetchModel gfPlain "u/f" true headNoRange worldOk).fetcher.concurrency
      = 1 ∧
    (FetchModel (FetchModel gfPlain "u/f" true headNoRange worldOk).fetcher
      "u/g" true headOk worldOk).fetcher.concurrency = 1 :=
  ⟨by decide, rfl, rfl, rfl,
    (C10_concurrency_mutation gfPlain "u/f" true headNoRange worldOk
      (by decide) rfl rfl rfl).1,
    ((C10_concurrency_mutation gfPlain "u/f" true headNoRange worldOk
      (by decide) rfl rfl rfl).2 "u/g" true headOk worldOk (by decide) rfl rfl
      rfl).1⟩

end GoFetch
